import Mathlib

/-!
Shallow embedding of the batch retrieval engine of the Calendar repository
(src/error.rs, src/lib.rs, src/downloader.rs), together with theorems that
settle the specification claims about it.

Modelling conventions:
* Rust `u64`/`u32`/`usize` values are `Nat`; where multiplication may wrap
  (release-mode Rust), the result is reduced `% 2 ^ 64` explicitly.
* HTTP status codes are `Nat` (`reqwest::StatusCode::as_u16`).
* Network and filesystem behaviour observed by a task is supplied by a
  `TaskOracle`: one `AttemptResult` per request attempt, an existence bit for
  the target path, and the result of the file write.  The task bodies are
  direct translations of the Rust control flow over this oracle.
* `tracing` log lines, progress-bar updates and sleeps have no bearing on the
  values computed and are not modelled (sleeping durations are modelled by the
  `calculate_delay` function they are computed from).
-/

/-- Character-list prefix test used by `strContains` (models Rust
`str::contains` with a string pattern). -/
def matchesAt : List Char → List Char → Bool
  | [], _ => true
  | _ :: _, [] => false
  | p :: ps, c :: cs => p == c && matchesAt ps cs

/-- Substring search on character lists. -/
def hasSubList : List Char → List Char → Bool
  | pat, [] => pat.isEmpty
  | pat, c :: cs => matchesAt pat (c :: cs) || hasSubList pat cs

/-- Models Rust `s.contains(pat)` (substring test). -/
def strContains (s pat : String) : Bool :=
  hasSubList pat.toList s.toList

/-- Models Rust `str::to_lowercase`.  The messages and patterns the classifier
works with are ASCII, for which per-character `Char.toLower` agrees with
Rust. -/
def strToLower (s : String) : String :=
  String.mk (s.toList.map Char.toLower)

/-- Models `reqwest::StatusCode::is_success` (2xx). -/
def statusIsSuccess (s : Nat) : Bool :=
  200 ≤ s && s < 300

/-- Models `reqwest::StatusCode::is_server_error` (5xx). -/
def statusIsServerError (s : Nat) : Bool :=
  500 ≤ s && s < 600

/-- src/error.rs: `enum RetryableError`.  `ServerError` carries the status
code, `DecodingFailed` and `Unknown` carry the message. -/
inductive RetryableError where
  | ConnectionTimeout
  | DnsFailed
  | ConnectionRefused
  | ConnectionFailed
  | ReadTimeout
  | WriteTimeout
  | TlsFailed
  | TooManyRequests
  | ServerError (status : Nat)
  | DecodingFailed (msg : String)
  | Unknown (msg : String)
deriving DecidableEq

/-- src/error.rs: `RetryableError::is_retryable`. -/
def RetryableError.is_retryable : RetryableError → Bool
  | .ConnectionTimeout | .DnsFailed | .ConnectionRefused
  | .ConnectionFailed | .ReadTimeout | .WriteTimeout | .TlsFailed
  | .TooManyRequests | .ServerError _ | .DecodingFailed _ => true
  | .Unknown _ => false

/-- src/error.rs: `RetryableError::suggested_delay_ms`. -/
def RetryableError.suggested_delay_ms : RetryableError → Nat
  | .TooManyRequests => 5000
  | .ServerError _ => 2000
  | .ConnectionTimeout => 1000
  | .DnsFailed => 2000
  | .ConnectionRefused => 2000
  | .ConnectionFailed => 2000
  | .ReadTimeout => 1000
  | .WriteTimeout => 1000
  | .TlsFailed => 3000
  | .DecodingFailed _ => 1000
  | .Unknown _ => 0

/-- src/error.rs: the message-matching tail of
`RetryableError::from_error_message` (the chain of `contains` tests on the
lower-cased message that runs after the status checks). -/
def fromMessageOnly (err_msg : String) : RetryableError :=
  let err_lower := strToLower err_msg
  if strContains err_lower "connection timed out" then .ConnectionTimeout
  else if strContains err_lower "timed out" then .ReadTimeout
  else if strContains err_lower "dns" || strContains err_lower "name or service not known"
      || strContains err_lower "no address associated with name" then .DnsFailed
  else if strContains err_lower "connection refused" then .ConnectionRefused
  else if strContains err_lower "network is unreachable" || strContains err_lower "connection reset"
      || strContains err_lower "broken pipe" || strContains err_lower "connection closed" then
    .ConnectionFailed
  else if strContains err_lower "tls" || strContains err_lower "ssl"
      || strContains err_lower "certificate" then .TlsFailed
  else if strContains err_lower "decode" || strContains err_lower "utf"
      || strContains err_lower "invalid utf" || strContains err_lower "stream" then
    .DecodingFailed err_msg
  else .Unknown err_msg

/-- src/error.rs: `RetryableError::from_error_message(err_msg, status)`. -/
def RetryableError.from_error_message (err_msg : String) (status : Option Nat) :
    RetryableError :=
  match status with
  | some s =>
    if s = 429 then .TooManyRequests
    else if statusIsServerError s then .ServerError s
    else fromMessageOnly err_msg
  | none => fromMessageOnly err_msg

/-- Modelled from the spec (section 4.1): the ordered rule table of the Error
Classifier, one entry per message rule, each a guard on the lower-cased
message paired with the produced category. -/
def specRuleList : List ((String → Bool) × (String → RetryableError)) :=
  [ (fun low => strContains low "connection timed out", fun _ => .ConnectionTimeout),
    (fun low => strContains low "timed out", fun _ => .ReadTimeout),
    (fun low => strContains low "dns" || strContains low "name or service not known"
      || strContains low "no address associated with name", fun _ => .DnsFailed),
    (fun low => strContains low "connection refused", fun _ => .ConnectionRefused),
    (fun low => strContains low "network is unreachable" || strContains low "connection reset"
      || strContains low "broken pipe" || strContains low "connection closed",
      fun _ => .ConnectionFailed),
    (fun low => strContains low "tls" || strContains low "ssl"
      || strContains low "certificate", fun _ => .TlsFailed),
    (fun low => strContains low "decode" || strContains low "utf"
      || strContains low "invalid utf" || strContains low "stream",
      fun m => .DecodingFailed m) ]

/-- Modelled from the spec (section 4.1): first-match-wins evaluation of a
rule table; falls through to `unknown(message)`. -/
def applyRules (rules : List ((String → Bool) × (String → RetryableError)))
    (raw low : String) : RetryableError :=
  match rules with
  | [] => .Unknown raw
  | r :: rs => if r.1 low then r.2 raw else applyRules rs raw low

/-- Modelled from the spec (section 4.1): the whole classifier contract —
status 429 first, then 5xx, then the ordered message rules on the lower-cased
message. -/
def specClassify (err_msg : String) (status : Option Nat) : RetryableError :=
  match status with
  | some s =>
    if s = 429 then .TooManyRequests
    else if statusIsServerError s then .ServerError s
    else applyRules specRuleList err_msg (strToLower err_msg)
  | none => applyRules specRuleList err_msg (strToLower err_msg)

/-- src/downloader.rs: `Downloader::calculate_delay`.  The `u64`
multiplication wraps in release mode, hence the explicit `% 2 ^ 64`. -/
def calculate_delay (attempt base_delay max_delay : Nat) : Nat :=
  Nat.min ((base_delay * 2 ^ Nat.min attempt 10) % 2 ^ 64) max_delay

/-- Calendar date, as carried by `chrono::NaiveDate` values the engine uses
(the engine only ever formats, parses and orders them). -/
structure Date where
  y : Nat
  m : Nat
  d : Nat
deriving DecidableEq

/-- Two-digit zero padding ('%m' / '%d'). -/
def pad2 (n : Nat) : String :=
  if n < 10 then "0" ++ toString n else toString n

/-- Four-digit zero padding ('%Y' for the years in range here). -/
def pad4 (n : Nat) : String :=
  if n < 10 then "000" ++ toString n
  else if n < 100 then "00" ++ toString n
  else if n < 1000 then "0" ++ toString n
  else toString n

/-- src/lib.rs: `date_utils::format_date` (format "%Y-%m-%d"). -/
def format_date (dt : Date) : String :=
  pad4 dt.y ++ "-" ++ pad2 dt.m ++ "-" ++ pad2 dt.d

/-- Gregorian leap-year rule, as validated by `chrono`. -/
def isLeap (y : Nat) : Bool :=
  (y % 4 == 0 && y % 100 != 0) || (y % 400 == 0)

/-- Days in a month, as validated by `chrono`. -/
def daysInMonth (y m : Nat) : Nat :=
  if m = 2 then (if isLeap y then 29 else 28)
  else if m = 4 || m = 6 || m = 9 || m = 11 then 30
  else 31

/-- Models `chrono::NaiveDate::parse_from_str(s, "%Y-%m-%d")` (external crate
called in `DownloadStats::latest_success_date`): split on '-', read the three
numbers, validate the calendar date. -/
def parseDate (s : String) : Option Date :=
  match s.splitOn "-" with
  | [ys, ms, ds] =>
    match ys.toNat?, ms.toNat?, ds.toNat? with
    | some y, some m, some dd =>
      if 1 ≤ m ∧ m ≤ 12 ∧ 1 ≤ dd ∧ dd ≤ daysInMonth y m then some ⟨y, m, dd⟩ else none
    | _, _, _ => none
  | _ => none

/-- Chronological key for a (validated) calendar date: with `m ≤ 12 < 32` and
`d ≤ 31 < 32` this is a strictly monotone embedding of `chrono`'s
year-month-day ordering. -/
def dateKey (dt : Date) : Nat :=
  dt.y * 1024 + dt.m * 32 + dt.d

/-- Models `Iterator::max` over dates (by the chronological order). -/
def maxDateList (l : List Date) : Option Date :=
  l.foldl
    (fun acc dt =>
      match acc with
      | none => some dt
      | some mx => if dateKey mx < dateKey dt then some dt else some mx)
    none

/-- src/lib.rs: `struct DownloadStats`. -/
structure DownloadStats where
  total : Nat
  succeeded : Nat
  failed : Nat
  skipped : Nat
  failed_dates : List String
  succeeded_dates : List String
deriving DecidableEq

/-- src/lib.rs: `DownloadStats::new`. -/
def DownloadStats.new (total : Nat) : DownloadStats :=
  { total := total, succeeded := 0, failed := 0, skipped := 0,
    failed_dates := [], succeeded_dates := [] }

/-- src/lib.rs: `DownloadStats::record_success` (increments the counter only —
it does not touch `succeeded_dates`). -/
def DownloadStats.record_success (s : DownloadStats) : DownloadStats :=
  { s with succeeded := s.succeeded + 1 }

/-- src/lib.rs: `DownloadStats::record_success_with_date`. -/
def DownloadStats.record_success_with_date (s : DownloadStats) (date : String) :
    DownloadStats :=
  { s with succeeded := s.succeeded + 1,
           succeeded_dates := s.succeeded_dates ++ [date] }

/-- src/lib.rs: `DownloadStats::record_failure`. -/
def DownloadStats.record_failure (s : DownloadStats) (date : String) : DownloadStats :=
  { s with failed := s.failed + 1, failed_dates := s.failed_dates ++ [date] }

/-- src/lib.rs: `DownloadStats::record_skip`. -/
def DownloadStats.record_skip (s : DownloadStats) : DownloadStats :=
  { s with skipped := s.skipped + 1 }

/-- src/lib.rs: `DownloadStats::latest_success_date` — `None` when
`succeeded_dates` is empty, else the maximum of the entries that parse as
"%Y-%m-%d" dates. -/
def DownloadStats.latest_success_date (s : DownloadStats) : Option Date :=
  if s.succeeded_dates.isEmpty then none
  else maxDateList (s.succeeded_dates.filterMap parseDate)

/-- src/error.rs: the `AppError` variants the download engine produces. -/
inductive AppError where
  | NetworkError (url details : String)
  | HttpError (url : String) (status : Nat)
  | FileError (path details : String)
deriving DecidableEq

/-- What one HTTP request attempt observes: a transport-level send failure, or
a response with a status code and (when the body is read) a body outcome. -/
inductive BodyResult where
  | ok (bytes : List Nat)
  | err (msg : String)
deriving DecidableEq

/-- Result of one attempt of `client.get(url).send()` plus the body read. -/
inductive AttemptResult where
  | sendErr (msg : String)
  | resp (status : Nat) (body : BodyResult)
deriving DecidableEq

/-- The environment one per-date task runs against: resolved URL and path
(from the templating collaborator), target-file existence, one
`AttemptResult` per attempt index, and the result of `tokio::fs::write`
(`none` = success, `some msg` = I/O error). -/
structure TaskOracle where
  url : String
  path : String
  fileExists : Bool
  attempts : Nat → AttemptResult
  writeResult : Option String

/-- Observable side effects of one task: number of HTTP requests issued,
bytes written to the target file (when a write succeeded), and whether the
two metadata-repair collaborators (`exif::set_exif_datetime`,
`fileops::set_file_timestamps`) were invoked. -/
structure TaskEffects where
  requests : Nat
  wrote : Option (List Nat)
  exifRepair : Bool
  timeRepair : Bool
deriving DecidableEq

/-- A task's outcome (`Ok((path, existed))` collapsed to the `existed` flag,
the path being fixed by the oracle) together with its effects. -/
structure TaskResultE where
  outcome : Except AppError Bool
  effects : TaskEffects

/-- src/downloader.rs: `struct RetryConfig`. -/
structure RetryConfig where
  max_retries : Nat
  base_delay_ms : Nat
  max_delay_ms : Nat
  enabled : Bool

/-- src/downloader.rs: `Downloader::classify_error` — `NetworkError` goes
through `from_error_message` with no status; `HttpError` is mapped directly
(429, 5xx, otherwise `Unknown("HTTP <status>")`); other variants are `None`.
The Rust `Display` of the status also appends the canonical reason phrase to
the `Unknown` payload; only the number is kept here, which no classification
or retryability decision depends on. -/
def classify_error : AppError → Option RetryableError
  | .NetworkError _ details => some (RetryableError.from_error_message details none)
  | .HttpError _ status =>
    if status = 429 then some .TooManyRequests
    else if statusIsServerError status then some (.ServerError status)
    else some (.Unknown ("HTTP " ++ toString status))
  | .FileError _ _ => none

/-- The retry gate of `download_with_retry`:
`classify_error(e).map(|re| re.is_retryable()).unwrap_or(false)`. -/
def retryableOf (e : AppError) : Bool :=
  ((classify_error e).map RetryableError.is_retryable).getD false

/-- src/downloader.rs: `Downloader::execute_download` — one request, status
check (404 singled out, then any non-success), body read, file write, then
metadata repair unless `download_only`.  There is no empty-body check on this
path. -/
def execute_download (url path : String) (att : AttemptResult)
    (writeRes : Option String) (download_only : Bool) : TaskResultE :=
  match att with
  | .sendErr msg =>
    { outcome := .error (.NetworkError url msg),
      effects := { requests := 1, wrote := none, exifRepair := false, timeRepair := false } }
  | .resp status body =>
    if statusIsSuccess status then
      match body with
      | .err msg =>
        { outcome := .error (.NetworkError url ("读取响应体失败: " ++ msg)),
          effects := { requests := 1, wrote := none, exifRepair := false, timeRepair := false } }
      | .ok bytes =>
        match writeRes with
        | some emsg =>
          { outcome := .error (.FileError path emsg),
            effects := { requests := 1, wrote := none, exifRepair := false, timeRepair := false } }
        | none =>
          { outcome := .ok false,
            effects := { requests := 1, wrote := some bytes,
                         exifRepair := !download_only, timeRepair := !download_only } }
    else if status = 404 then
      { outcome := .error (.HttpError url 404),
        effects := { requests := 1, wrote := none, exifRepair := false, timeRepair := false } }
    else
      { outcome := .error (.HttpError url status),
        effects := { requests := 1, wrote := none, exifRepair := false, timeRepair := false } }

/-- The retrying loop of `download_with_retry` (`for attempt in 0..=max_retries`).
`fuel` counts the loop iterations still permitted (`max_retries + 1 - attempt`
at the top call); the `fuel = 0` default mirrors the `unreachable!()` after
the Rust loop, which is never hit because at `attempt = max_retries` every
branch returns.  The second component counts the attempts executed. -/
def dwrGo (orc : TaskOracle) (max_retries : Nat) (download_only : Bool) :
    Nat → Nat → Except AppError Bool × Nat
  | 0, _ => (.error (.NetworkError orc.url "unreachable"), 0)
  | fuel + 1, attempt =>
    match (execute_download orc.url orc.path (orc.attempts attempt)
            orc.writeResult download_only).outcome with
    | .ok existed => (.ok existed, 1)
    | .error e =>
      if retryableOf e && attempt < max_retries then
        let r := dwrGo orc max_retries download_only fuel (attempt + 1)
        (r.1, r.2 + 1)
      else (.error e, 1)

/-- src/downloader.rs: `Downloader::download_with_retry` — existence
short-circuit, then either a single `execute_download` (retry disabled) or the
retry loop.  Returns the task outcome and the number of attempts executed
(0 when the fetch was skipped). -/
def download_with_retry (orc : TaskOracle) (cfg : RetryConfig)
    (overwrite download_only : Bool) : Except AppError Bool × Nat :=
  if orc.fileExists && !overwrite then (.ok true, 0)
  else if !cfg.enabled then
    ((execute_download orc.url orc.path (orc.attempts 0) orc.writeResult
        download_only).outcome, 1)
  else dwrGo orc cfg.max_retries download_only (cfg.max_retries + 1) 0

/-- src/downloader.rs: the constant `MAX_RETRIES` of the inline loop in
`download_batch`. -/
def MAX_RETRIES : Nat := 3

/-- The body-read retryability test of the inline batch loop: the lower-cased
message contains "decode", "stream", "connection" or "timeout". -/
def batchBodyErrRetryable (msg : String) : Bool :=
  let err_msg := strToLower msg
  strContains err_msg "decode" || strContains err_msg "stream"
    || strContains err_msg "connection" || strContains err_msg "timeout"

/-- The inline fetch loop of `download_batch`
(`for attempt in 0..=MAX_RETRIES`): transport errors and non-404 non-success
statuses `continue` (no classification) unless this is the last attempt; 404
returns immediately; an empty successful body `continue`s, failing with
"服务器返回空响应" on the last attempt; a body-read error is retried only
when `batchBodyErrRetryable` and attempts remain.  `fuel` and the count are
as in `dwrGo`; the `fuel = 0` default mirrors the `unreachable!()` after the
loop. -/
def batchFetchGo (url : String) (att : Nat → AttemptResult) :
    Nat → Nat → Except AppError (List Nat) × Nat
  | 0, _ => (.error (.NetworkError url "unreachable"), 0)
  | fuel + 1, attempt =>
    let next := fun (_ : Unit) =>
      let r := batchFetchGo url att fuel (attempt + 1)
      (r.1, r.2 + 1)
    match att attempt with
    | .sendErr msg =>
      if attempt == MAX_RETRIES then (.error (.NetworkError url msg), 1)
      else next ()
    | .resp status body =>
      if !statusIsSuccess status then
        if status == 404 then (.error (.HttpError url status), 1)
        else if attempt == MAX_RETRIES then (.error (.HttpError url status), 1)
        else next ()
      else
        match body with
        | .ok b =>
          if b.isEmpty then
            if attempt == MAX_RETRIES then
              (.error (.NetworkError url "服务器返回空响应"), 1)
            else next ()
          else (.ok b, 1)
        | .err msg =>
          if !batchBodyErrRetryable msg || attempt == MAX_RETRIES then
            (.error (.NetworkError url msg), 1)
          else next ()

/-- The whole inline fetch of `download_batch`, starting at attempt 0. -/
def batchFetch (url : String) (att : Nat → AttemptResult) :
    Except AppError (List Nat) × Nat :=
  batchFetchGo url att (MAX_RETRIES + 1) 0

/-- The per-date task spawned by `download_batch`: existence short-circuit
(with metadata repair unless `download_only`), inline fetch loop, file write,
metadata repair unless `download_only`.  Repair failures are logged only and
do not alter the outcome, so the oracle does not model them. -/
def batchTask (orc : TaskOracle) (overwrite download_only : Bool) : TaskResultE :=
  if orc.fileExists && !overwrite then
    { outcome := .ok true,
      effects := { requests := 0, wrote := none,
                   exifRepair := !download_only, timeRepair := !download_only } }
  else
    let fr := batchFetch orc.url orc.attempts
    match fr.1 with
    | .error e =>
      { outcome := .error e,
        effects := { requests := fr.2, wrote := none,
                     exifRepair := false, timeRepair := false } }
    | .ok bytes =>
      match orc.writeResult with
      | some emsg =>
        { outcome := .error (.FileError orc.path emsg),
          effects := { requests := fr.2, wrote := none,
                       exifRepair := false, timeRepair := false } }
      | none =>
        { outcome := .ok false,
          effects := { requests := fr.2, wrote := some bytes,
                       exifRepair := !download_only, timeRepair := !download_only } }

/-- Folding one task outcome into the statistics, as done in the
`tasks.next().await` aggregation loop of `download_batch`: `existed` →
`record_skip`, fresh download → `record_success`, error → `record_failure`
with the date string. -/
def foldOutcome (stats : DownloadStats) (date_str : String)
    (r : Except AppError Bool) : DownloadStats :=
  match r with
  | .ok true => stats.record_skip
  | .ok false => stats.record_success
  | .error _ => stats.record_failure date_str

/-- src/downloader.rs: `Downloader::download_batch` — runs the per-date task
for every date and aggregates the outcomes.  `orc` supplies each date's
resolved URL/path and observed I/O (the templating collaborator plus the
network).  Aggregation is folded in admission order; the `FuturesUnordered`
completion order can permute only the order of `failed_dates`, which no claim
depends on.  Semaphore acquisition over a never-closed semaphore does not
fail, and no task outcome is dropped, so every date is aggregated.
`max_concurrent` bounds scheduling only (see the pool model below) and does
not change the aggregated values. -/
def download_batch (orc : Date → TaskOracle) (dates : List Date)
    (max_concurrent : Nat) (overwrite download_only : Bool) : DownloadStats :=
  dates.foldl
    (fun stats date =>
      foldOutcome stats (format_date date)
        (batchTask (orc date) overwrite download_only).outcome)
    (DownloadStats.new dates.length)

/-- src/downloader.rs: `Downloader::process_dates` — the batch engine with
concurrency 1, `download_only` locally forced `false` and overridden to
`true` when `metadata_only` is set. -/
def process_dates (orc : Date → TaskOracle) (dates : List Date)
    (overwrite metadata_only : Bool) : DownloadStats :=
  let download_only := false
  download_batch orc dates 1 overwrite
    (if metadata_only then true else download_only)

/-- The observable actions of one spawned task, in program order. -/
inductive TaskAction where
  | checkFile
  | request
  | writeFile
  | exifRepair
  | timeRepair
  | releasePermit
deriving DecidableEq

/-- The sequence of actions one spawned task of `download_batch` performs, as
dictated by its branch structure: the permit (captured by the `async move`
block, explicitly dropped in the success branch after the repairs, dropped at
scope end in the other branches) is released strictly after everything else. -/
def taskProgram (orc : TaskOracle) (overwrite download_only : Bool) : List TaskAction :=
  (TaskAction.checkFile ::
    (if orc.fileExists && !overwrite then
      (if download_only then [] else [TaskAction.exifRepair, TaskAction.timeRepair])
    else
      List.replicate (batchFetch orc.url orc.attempts).2 TaskAction.request ++
        (match (batchFetch orc.url orc.attempts).1 with
         | .error _ => []
         | .ok _ =>
           match orc.writeResult with
           | some _ => [TaskAction.writeFile]
           | none =>
             TaskAction.writeFile ::
               (if download_only then [] else [TaskAction.exifRepair, TaskAction.timeRepair]))))
    ++ [TaskAction.releasePermit]

/-- Scheduling status of one task slot: not yet admitted, admitted and holding
a permit (with the actions still to run), or finished (permit returned). -/
inductive TStat where
  | waiting
  | running (rest : List TaskAction)
  | finished

/-- Whether a task is past permit admission and before permit release. -/
def TStat.isActive : TStat → Bool
  | .running _ => true
  | _ => false

/-- State of the admission pool: permits still available in the semaphore and
the status of every task. -/
structure Pool where
  avail : Nat
  tasks : List TStat

/-- Number of tasks simultaneously past admission and before permit release. -/
def runningCount (p : Pool) : Nat :=
  p.tasks.countP TStat.isActive

/-- Small-step semantics of the admission pool of `download_batch` with
per-task programs `progs`: `acquire_owned` succeeds only when a permit is
available and hands it to the task; interior actions run one at a time (in
any interleaving); the permit returns to the semaphore only by the task's
`releasePermit` action. -/
inductive PoolStep (progs : List (List TaskAction)) : Pool → Pool → Prop where
  | acquire (p : Pool) (i : Nat) (prog : List TaskAction)
      (hw : p.tasks.get? i = some .waiting)
      (hp : progs.get? i = some prog)
      (ha : 0 < p.avail) :
      PoolStep progs p ⟨p.avail - 1, p.tasks.set i (.running prog)⟩
  | work (p : Pool) (i : Nat) (a : TaskAction) (rest : List TaskAction)
      (hr : p.tasks.get? i = some (.running (a :: rest)))
      (hna : a ≠ TaskAction.releasePermit) :
      PoolStep progs p ⟨p.avail, p.tasks.set i (.running rest)⟩
  | free (p : Pool) (i : Nat) (rest : List TaskAction)
      (hr : p.tasks.get? i = some (.running (TaskAction.releasePermit :: rest))) :
      PoolStep progs p ⟨p.avail + 1, p.tasks.set i .finished⟩

/-- Initial pool: a semaphore of `n` permits (`Semaphore::new(max_concurrent)`)
and `k` tasks not yet admitted. -/
def initPool (n k : Nat) : Pool :=
  ⟨n, List.replicate k .waiting⟩

/-- States the batch run can reach from the initial pool. -/
def PoolReachable (progs : List (List TaskAction)) (n k : Nat) (p : Pool) : Prop :=
  Relation.ReflTransGen (PoolStep progs) (initPool n k) p
/-- The pool invariant: available permits plus active tasks together account
for the semaphore's full capacity. -/
def PoolInv (n : Nat) (p : Pool) : Prop :=
  p.avail + runningCount p = n

theorem fromMessageOnly_eq_applyRules (msg : String) :
    fromMessageOnly msg = applyRules specRuleList msg (strToLower msg) := by
  rfl

/-- C10: a `RetryableError` is retryable exactly when its suggested delay is
positive — `unknown` is the unique variant with delay 0 and retryable false;
every other variant has a positive delay and is retryable. -/
theorem claim10_retryable_iff_positive_delay (e : RetryableError) :
    e.is_retryable = true ↔ 0 < e.suggested_delay_ms := by
  cases e <;>
    simp [RetryableError.is_retryable, RetryableError.suggested_delay_ms]

/-- C6: `from_error_message` is exactly first-match-wins evaluation of the
spec's ordered rule table (status 429, then 5xx, then the lower-cased-message
substring rules in order, then unknown), and in particular a message
containing "connection timed out" classifies as connection-timeout (not
read-timeout), matching is case-insensitive, and the status rules come
first. -/
theorem claim6_classifier_first_match :
    (∀ msg status, RetryableError.from_error_message msg status = specClassify msg status)
  ∧ RetryableError.from_error_message "connection timed out" none
      = RetryableError.ConnectionTimeout
  ∧ RetryableError.from_error_message "It TIMED OUT while reading" none
      = RetryableError.ReadTimeout
  ∧ RetryableError.from_error_message "dns error" (some 429)
      = RetryableError.TooManyRequests
  ∧ RetryableError.from_error_message "dns error" (some 503)
      = RetryableError.ServerError 503
  ∧ RetryableError.from_error_message "something odd happened" none
      = RetryableError.Unknown "something odd happened" := by
  refine ⟨?_, by decide, by decide, rfl, rfl, by decide⟩
  intro msg status
  cases status with
  | none =>
    simp [RetryableError.from_error_message, specClassify, fromMessageOnly_eq_applyRules]
  | some s =>
    simp only [RetryableError.from_error_message, specClassify,
      fromMessageOnly_eq_applyRules]

/-- C7: the backoff delay function is deterministic and (absent `u64`
overflow, which the concrete policy never reaches) equals
`min(base_delay * 2 ^ min(attempt, 10), max_delay)`; with `base_delay = 1000`
and `max_delay = 30000`, attempts 0,1,2,3 give 1000, 2000, 4000, 8000 ms, and
every attempt index at least 10 gives `max_delay`. -/
theorem claim7_backoff_delay :
    (∀ attempt base_delay max_delay : Nat,
        base_delay * 2 ^ Nat.min attempt 10 < 2 ^ 64 →
        calculate_delay attempt base_delay max_delay
          = Nat.min (base_delay * 2 ^ Nat.min attempt 10) max_delay)
  ∧ (∀ attempt, calculate_delay attempt 1000 30000
        = Nat.min (1000 * 2 ^ Nat.min attempt 10) 30000)
  ∧ calculate_delay 0 1000 30000 = 1000
  ∧ calculate_delay 1 1000 30000 = 2000
  ∧ calculate_delay 2 1000 30000 = 4000
  ∧ calculate_delay 3 1000 30000 = 8000
  ∧ (∀ attempt, 10 ≤ attempt → calculate_delay attempt 1000 30000 = 30000) := by
  have hgen : ∀ attempt base_delay max_delay : Nat,
      base_delay * 2 ^ Nat.min attempt 10 < 2 ^ 64 →
      calculate_delay attempt base_delay max_delay
        = Nat.min (base_delay * 2 ^ Nat.min attempt 10) max_delay := by
    intro attempt base_delay max_delay h
    unfold calculate_delay
    rw [Nat.mod_eq_of_lt h]
  have hbound : ∀ attempt : Nat, 1000 * 2 ^ Nat.min attempt 10 < 2 ^ 64 := by
    intro attempt
    have h1 : 2 ^ Nat.min attempt 10 ≤ 2 ^ 10 :=
      Nat.pow_le_pow_right (by norm_num) (Nat.min_le_right _ _)
    have h2 : 1000 * 2 ^ Nat.min attempt 10 ≤ 1000 * 2 ^ 10 :=
      Nat.mul_le_mul_left _ h1
    calc 1000 * 2 ^ Nat.min attempt 10 ≤ 1000 * 2 ^ 10 := h2
      _ < 2 ^ 64 := by norm_num
  have hconc : ∀ attempt, calculate_delay attempt 1000 30000
      = Nat.min (1000 * 2 ^ Nat.min attempt 10) 30000 :=
    fun attempt => hgen attempt 1000 30000 (hbound attempt)
  refine ⟨hgen, hconc, rfl, rfl, rfl, rfl, ?_⟩
  intro attempt h
  have hm : Nat.min attempt 10 = 10 := min_eq_right h
  rw [hconc attempt, hm]
  rfl

/-- C1: refuted by the code — in `download_batch` a downloaded outcome is
aggregated with `record_success()`, which does not append to
`succeeded_dates`, so after a run whose single date is downloaded the
statistics report one success but an empty `succeeded_dates` and
`latest_success_date() = None` (the claim requires `some ⟨2024,6,1⟩`).  The
unused `record_success_with_date` (last conjunct) is the recording behaviour
the claim and `main.rs`'s checkpoint update assume. -/
theorem claim1_checkpoint_bug :
    (let stats := download_batch
        (fun _ => { url := "u", path := "p", fileExists := false,
                    attempts := fun _ => .resp 200 (.ok [1]),
                    writeResult := none })
        [⟨2024, 6, 1⟩] 3 false false
     stats.succeeded = 1 ∧ stats.succeeded_dates = []
       ∧ stats.latest_success_date = none)
  ∧ ((DownloadStats.new 1).record_success_with_date "2024-06-01").succeeded_dates
      = ["2024-06-01"] := by
  exact ⟨⟨rfl, rfl, rfl⟩, rfl⟩

theorem foldOutcome_total (s : DownloadStats) (ds : String)
    (r : Except AppError Bool) : (foldOutcome s ds r).total = s.total := by
  rcases r with e | b
  · rfl
  · cases b <;> rfl

theorem foldOutcome_sum (s : DownloadStats) (ds : String)
    (r : Except AppError Bool) :
    (foldOutcome s ds r).succeeded + (foldOutcome s ds r).failed
        + (foldOutcome s ds r).skipped
      = s.succeeded + s.failed + s.skipped + 1 := by
  rcases r with e | b
  · simp [foldOutcome, DownloadStats.record_failure]
    omega
  · cases b
    · simp [foldOutcome, DownloadStats.record_success]
      omega
    · simp [foldOutcome, DownloadStats.record_skip]
      omega

theorem foldl_outcomes (f : Date → Except AppError Bool) :
    ∀ (l : List Date) (s : DownloadStats),
      (l.foldl (fun st d => foldOutcome st (format_date d) (f d)) s).total = s.total
    ∧ (l.foldl (fun st d => foldOutcome st (format_date d) (f d)) s).succeeded
        + (l.foldl (fun st d => foldOutcome st (format_date d) (f d)) s).failed
        + (l.foldl (fun st d => foldOutcome st (format_date d) (f d)) s).skipped
      = s.succeeded + s.failed + s.skipped + l.length := by
  intro l
  induction l with
  | nil => intro s; simp
  | cons d rest ih =>
    intro s
    have h1 := ih (foldOutcome s (format_date d) (f d))
    have h2 := foldOutcome_sum s (format_date d) (f d)
    have h3 := foldOutcome_total s (format_date d) (f d)
    constructor
    · simpa [List.foldl_cons, h3] using h1.1
    · simp only [List.foldl_cons, List.length_cons]
      have h4 := h1.2
      omega

/-- C2: once `download_batch` returns (every date's task outcome aggregated,
no admission failure — automatic in this deterministic model, see
`download_batch`'s doc), the statistics satisfy
`succeeded + failed + skipped = total` with `total` the length of the input
date sequence. -/
theorem claim2_counts_invariant (orc : Date → TaskOracle) (dates : List Date)
    (max_concurrent : Nat) (overwrite download_only : Bool) :
    (download_batch orc dates max_concurrent overwrite download_only).succeeded
      + (download_batch orc dates max_concurrent overwrite download_only).failed
      + (download_batch orc dates max_concurrent overwrite download_only).skipped
      = (download_batch orc dates max_concurrent overwrite download_only).total
  ∧ (download_batch orc dates max_concurrent overwrite download_only).total
      = dates.length := by
  have h := foldl_outcomes
    (fun d => (batchTask (orc d) overwrite download_only).outcome) dates
    (DownloadStats.new dates.length)
  unfold download_batch
  refine ⟨?_, h.1⟩
  rw [h.1]
  simpa [DownloadStats.new] using h.2

/-- C7 witness: the backoff formula instantiated at concrete inputs, with the
overflow side condition and the `10 ≤ attempt` hypothesis discharged. -/
theorem claim7_backoff_delay_witness :
    calculate_delay 2 7 100000 = 28 ∧ calculate_delay 12 1000 30000 = 30000 := by
  constructor
  · rw [claim7_backoff_delay.1 2 7 100000 (by norm_num)]
    rfl
  · exact claim7_backoff_delay.2.2.2.2.2.2 12 (by norm_num)

/-- C8: `process_dates dates overwrite metadata_only` returns exactly the
statistics of the batch engine at concurrency 1 with its `download_only`
parameter derived from the locally forced `false` overridden by
`metadata_only`; and in the engine that parameter suppresses only the
metadata-repair step — a task run with it set issues the same requests and
writes the same bytes as with it clear, with both repair collaborators
suppressed. -/
theorem claim8_process_dates (orc : Date → TaskOracle) (dates : List Date)
    (overwrite metadata_only : Bool) :
    process_dates orc dates overwrite metadata_only
      = download_batch orc dates 1 overwrite metadata_only
  ∧ ∀ o overwrite2,
      (batchTask o overwrite2 true).outcome = (batchTask o overwrite2 false).outcome
    ∧ (batchTask o overwrite2 true).effects.requests
        = (batchTask o overwrite2 false).effects.requests
    ∧ (batchTask o overwrite2 true).effects.wrote
        = (batchTask o overwrite2 false).effects.wrote
    ∧ (batchTask o overwrite2 true).effects.exifRepair = false
    ∧ (batchTask o overwrite2 true).effects.timeRepair = false := by
  constructor
  · cases metadata_only <;> rfl
  · intro o overwrite2
    unfold batchTask
    by_cases hex : (o.fileExists && !overwrite2) = true
    · simp [hex]
    · simp only [Bool.not_eq_true] at hex
      simp only [hex, Bool.false_eq_true, if_false]
      rcases hres : (batchFetch o.url o.attempts).1 with e | bytes
      · simp [hres]
      · rcases hw : o.writeResult with _ | emsg
        · simp [hres, hw]
        · simp [hres, hw]

theorem batchFetchGo_count_pos (url : String) (att : Nat → AttemptResult) :
    ∀ (fuel a : Nat), 1 ≤ (batchFetchGo url att (fuel + 1) a).2 := by
  intro fuel a
  rcases hatt : att a with msg | ⟨s, b⟩
  · simp only [batchFetchGo, hatt]
    split <;> simp
  · rcases b with bytes | msg <;> simp only [batchFetchGo, hatt] <;>
      repeat' first
        | omega
        | simp
        | split

/-- C5: a response with status 404 on the first attempt is terminal in both
fetch paths, for every retry policy: `download_with_retry` returns
`failed(HTTP 404)` after exactly one attempt (whatever `max_retries` and
`enabled` are), and so does the inline loop of `download_batch`. -/
theorem claim5_404_terminal (orc : TaskOracle) (cfg : RetryConfig)
    (overwrite download_only : Bool) (b : BodyResult)
    (hex : orc.fileExists = false)
    (h0 : orc.attempts 0 = .resp 404 b) :
    download_with_retry orc cfg overwrite download_only
        = (.error (.HttpError orc.url 404), 1)
  ∧ batchFetch orc.url orc.attempts
        = (.error (.HttpError orc.url 404), 1) := by
  constructor
  · unfold download_with_retry
    rw [hex]
    simp only [Bool.false_and, Bool.false_eq_true, if_false]
    rcases he : cfg.enabled with _ | _
    · simp only [he, Bool.not_false, if_true]
      rw [h0]
      rfl
    · simp only [he, Bool.not_true, Bool.false_eq_true, if_false]
      simp only [dwrGo]
      rw [h0]
      rfl
  · unfold batchFetch
    simp only [MAX_RETRIES, batchFetchGo]
    rw [h0]
    rfl

/-- C5 witness: the 404-terminal behaviour at a concrete oracle and a policy
with five retries enabled. -/
theorem claim5_404_terminal_witness :
    download_with_retry
        { url := "u", path := "p", fileExists := false,
          attempts := fun _ => .resp 404 (.ok []), writeResult := none }
        { max_retries := 5, base_delay_ms := 1000, max_delay_ms := 30000,
          enabled := true }
        false false
      = (.error (.HttpError "u" 404), 1) :=
  (claim5_404_terminal _ _ false false _ rfl rfl).1

theorem dwrGo_retry_gate (orc : TaskOracle) (mr : Nat) (dl : Bool) :
    ∀ (fuel a k : Nat),
      k + 1 < (dwrGo orc mr dl fuel a).2 →
      ∃ e, (execute_download orc.url orc.path (orc.attempts (a + k))
              orc.writeResult dl).outcome = .error e
        ∧ retryableOf e = true ∧ a + k < mr := by
  intro fuel
  induction fuel with
  | zero =>
    intro a k h
    simp [dwrGo] at h
  | succ fuel ih =>
    intro a k h
    rcases hout : (execute_download orc.url orc.path (orc.attempts a)
        orc.writeResult dl).outcome with e | ex
    · by_cases hc : (retryableOf e && decide (a < mr)) = true
      · simp only [dwrGo, hout, hc, if_true] at h
        have hc' : retryableOf e = true ∧ a < mr := by simpa using hc
        cases k with
        | zero =>
          exact ⟨e, by simpa using hout, hc'.1, by simpa using hc'.2⟩
        | succ k' =>
          have h' : k' + 1 < (dwrGo orc mr dl fuel (a + 1)).2 := by omega
          have := ih (a + 1) k' h'
          have harith : a + 1 + k' = a + (k' + 1) := by omega
          rwa [harith] at this
      · simp only [dwrGo, hout] at h
        rw [if_neg hc] at h
        simp at h
    · simp only [dwrGo, hout] at h
      simp at h

theorem dwr_nonretryable_immediate (orc : TaskOracle) (cfg : RetryConfig)
    (overwrite download_only : Bool) (e : AppError)
    (hex : orc.fileExists = false)
    (h0 : (execute_download orc.url orc.path (orc.attempts 0)
            orc.writeResult download_only).outcome = .error e)
    (hnr : retryableOf e = false) :
    download_with_retry orc cfg overwrite download_only = (.error e, 1) := by
  unfold download_with_retry
  rw [hex]
  simp only [Bool.false_and, Bool.false_eq_true, if_false]
  rcases he : cfg.enabled with _ | _
  · simp only [he, Bool.not_false, if_true, h0]
  · simp only [he, Bool.not_true, Bool.false_eq_true, if_false]
    simp only [dwrGo, h0, hnr, Bool.false_and, Bool.false_eq_true, if_false]

/-- C3 as stated is refuted by the inline loop of `download_batch`: an HTTP
403 response classifies as unknown (`retryableOf` false), yet the loop makes
a further attempt after it — with a 403 on attempt 0 and a good response on
attempt 1 the fetch succeeds after 2 attempts instead of surfacing the 403
immediately. -/
theorem claim3_counterexample :
    retryableOf (.HttpError "u" 403) = false
  ∧ batchFetch "u"
        (fun a => if a = 0 then .resp 403 (.ok []) else .resp 200 (.ok [7]))
      = (.ok [7], 2) := by
  exact ⟨rfl, rfl⟩

theorem batchFetchGo_step_nonfinal_http (url : String) (att : Nat → AttemptResult)
    (fuel a s : Nat) (b : BodyResult)
    (h : att a = .resp s b) (hns : statusIsSuccess s = false)
    (hn4 : s ≠ 404) (hna : (a == MAX_RETRIES) = false) :
    batchFetchGo url att (fuel + 1) a
      = ((batchFetchGo url att fuel (a + 1)).1,
         (batchFetchGo url att fuel (a + 1)).2 + 1) := by
  have h404 : (s == 404) = false := by simp [hn4]
  simp only [batchFetchGo, h, hns, Bool.not_false, if_true, h404,
    Bool.false_eq_true, if_false, hna]

/-- C3 amended: in `download_with_retry` the property holds as claimed — a
further attempt after a failed attempt happens only when retry is enabled,
the classified category is retryable and attempts remain, and a
non-retryably-classified (e.g. unknown) first error is surfaced immediately
after one attempt.  The inline loop of `download_batch`, however, consults no
classifier: any non-404 non-success HTTP status (like the 403 of the
counterexample) is retried while attempts remain. -/
theorem claim3_retry_gate :
    (∀ (orc : TaskOracle) (cfg : RetryConfig) (overwrite download_only : Bool)
        (k : Nat),
      orc.fileExists = false →
      k + 1 < (download_with_retry orc cfg overwrite download_only).2 →
      cfg.enabled = true ∧ k < cfg.max_retries
        ∧ ∃ e, (execute_download orc.url orc.path (orc.attempts k)
                  orc.writeResult download_only).outcome = .error e
            ∧ retryableOf e = true)
  ∧ (∀ (orc : TaskOracle) (cfg : RetryConfig) (overwrite download_only : Bool)
        (e : AppError),
      orc.fileExists = false →
      (execute_download orc.url orc.path (orc.attempts 0)
          orc.writeResult download_only).outcome = .error e →
      retryableOf e = false →
      download_with_retry orc cfg overwrite download_only = (.error e, 1))
  ∧ (∀ (url : String) (att : Nat → AttemptResult) (s : Nat) (b : BodyResult),
      att 0 = .resp s b → statusIsSuccess s = false → s ≠ 404 →
      2 ≤ (batchFetch url att).2) := by
  refine ⟨?_, dwr_nonretryable_immediate, ?_⟩
  · intro orc cfg overwrite download_only k hex h
    unfold download_with_retry at h
    rw [hex] at h
    simp only [Bool.false_and, Bool.false_eq_true, if_false] at h
    rcases he : cfg.enabled with _ | _
    · rw [he] at h
      simp only [Bool.not_false, if_true] at h
      omega
    · rw [he] at h
      simp only [Bool.not_true, Bool.false_eq_true, if_false] at h
      have := dwrGo_retry_gate orc cfg.max_retries download_only
        (cfg.max_retries + 1) 0 k h
      rcases this with ⟨e, hout, hre, hlt⟩
      simp only [Nat.zero_add] at hout hlt
      exact ⟨rfl, hlt, e, hout, hre⟩
  · intro url att s b h0 hns hn4
    have hstep := batchFetchGo_step_nonfinal_http url att MAX_RETRIES 0 s b h0 hns hn4
      (by decide)
    unfold batchFetch
    rw [hstep]
    have := batchFetchGo_count_pos url att 2 1
    norm_num [MAX_RETRIES] at this ⊢
    omega

/-- C3 witness: a retryable first failure ("connection refused") with retry
enabled and attempts remaining leads to a second attempt, and the retry-gate
theorem applied there certifies the first attempt's error was classified
retryable. -/
theorem claim3_retry_gate_witness :
    (RetryConfig.mk 3 1000 30000 true).enabled = true
  ∧ 0 < (RetryConfig.mk 3 1000 30000 true).max_retries
  ∧ ∃ e, (execute_download "u" "p"
            ((TaskOracle.mk "u" "p" false
                (fun a => if a = 0 then .sendErr "connection refused"
                  else .resp 200 (.ok [5])) none).attempts 0)
            none false).outcome = .error e
      ∧ retryableOf e = true :=
  claim3_retry_gate.1
    (TaskOracle.mk "u" "p" false
      (fun a => if a = 0 then .sendErr "connection refused"
        else .resp 200 (.ok [5])) none)
    (RetryConfig.mk 3 1000 30000 true)
    false false 0 rfl (by decide)

/-- C4 as stated is refuted on the `execute_download` path (the fetch used by
`download`/`download_with_retry`): a success status with an empty body is not
treated as a failure there — the task returns success and writes the empty
byte string to the file. -/
theorem claim4_counterexample :
    (execute_download "u" "p" (.resp 200 (.ok [])) none false).outcome
        = .ok false
  ∧ (execute_download "u" "p" (.resp 200 (.ok [])) none false).effects.wrote
        = some [] := by
  exact ⟨rfl, rfl⟩

theorem batchFetchGo_ok_nonempty (url : String) (att : Nat → AttemptResult) :
    ∀ (fuel a : Nat) (b : List Nat),
      (batchFetchGo url att fuel a).1 = .ok b → b.isEmpty = false := by
  intro fuel
  induction fuel with
  | zero =>
    intro a b h
    simp [batchFetchGo] at h
  | succ fuel ih =>
    intro a b h
    rcases hatt : att a with msg | ⟨s, body⟩
    · simp only [batchFetchGo, hatt] at h
      repeat' split at h
      all_goals first
        | exact ih (a + 1) b (by simpa using h)
        | simp_all
    · rcases body with bytes | msg
      · simp only [batchFetchGo, hatt] at h
        repeat' split at h
        all_goals first
          | exact ih (a + 1) b (by simpa using h)
          | simp_all
      · simp only [batchFetchGo, hatt] at h
        repeat' split at h
        all_goals first
          | exact ih (a + 1) b (by simpa using h)
          | simp_all

theorem batchFetchGo_step_empty (url : String) (att : Nat → AttemptResult)
    (fuel a s : Nat) (h : att a = .resp s (.ok []))
    (hsu : statusIsSuccess s = true) (hna : (a == MAX_RETRIES) = false) :
    batchFetchGo url att (fuel + 1) a
      = ((batchFetchGo url att fuel (a + 1)).1,
         (batchFetchGo url att fuel (a + 1)).2 + 1) := by
  simp only [batchFetchGo, h, hsu, Bool.not_true, Bool.false_eq_true, if_false,
    List.isEmpty_nil, if_true, hna]

/-- C4 amended: the empty-successful-body handling the claim describes is the
behaviour of the inline loop of `download_batch` only — there the fetch never
returns empty bytes (so no empty file is written on that path), an empty
success body with attempts remaining leads to a further attempt, and with
every attempt an empty success body the fetch fails after all
`MAX_RETRIES + 1 = 4` attempts with the "服务器返回空响应" (server returned
empty response) error.  The `execute_download` path has no empty-body check
and writes the empty body (see the counterexample). -/
theorem claim4_empty_body :
    (∀ (url : String) (att : Nat → AttemptResult) (fuel a : Nat) (b : List Nat),
        (batchFetchGo url att fuel a).1 = .ok b → b.isEmpty = false)
  ∧ (∀ (url : String) (att : Nat → AttemptResult) (s : Nat),
        att 0 = .resp s (.ok []) → statusIsSuccess s = true →
        2 ≤ (batchFetch url att).2)
  ∧ (∀ (url : String) (att : Nat → AttemptResult),
        (∀ a, att a = .resp 200 (.ok [])) →
        batchFetch url att
          = (.error (.NetworkError url "服务器返回空响应"), 4)) := by
  refine ⟨batchFetchGo_ok_nonempty, ?_, ?_⟩
  · intro url att s h0 hsu
    have hstep := batchFetchGo_step_empty url att MAX_RETRIES 0 s h0 hsu (by decide)
    unfold batchFetch
    rw [hstep]
    have := batchFetchGo_count_pos url att 2 1
    norm_num [MAX_RETRIES] at this ⊢
    omega
  · intro url att h
    simp [batchFetch, MAX_RETRIES, batchFetchGo, h 0, h 1, h 2, h 3, statusIsSuccess]

/-- C4 witness: the amended exhaustion behaviour applied at an oracle every
attempt of which returns an empty success body. -/
theorem claim4_empty_body_witness :
    batchFetch "u" (fun _ => .resp 200 (.ok []))
      = (.error (.NetworkError "u" "服务器返回空响应"), 4) :=
  claim4_empty_body.2.2 "u" (fun _ => .resp 200 (.ok [])) (fun _ => rfl)

theorem countP_set_eq (f : TStat → Bool) :
    ∀ (l : List TStat) (i : Nat) (t t' : TStat),
      l.get? i = some t →
      (l.set i t').countP f + (if f t then 1 else 0)
        = l.countP f + (if f t' then 1 else 0) := by
  intro l
  induction l with
  | nil =>
    intro i t t' h
    simp at h
  | cons x xs ih =>
    intro i t t' h
    cases i with
    | zero =>
      have hx : x = t := by simpa using h
      subst hx
      simp only [List.set, List.countP_cons]
      by_cases hfx : f x = true <;> by_cases hft : f t' = true <;>
        simp [hfx, hft] <;> omega
    | succ i =>
      have hih := ih i t t' (by simpa using h)
      simp only [List.set, List.countP_cons]
      omega


theorem poolStep_preserves (progs : List (List TaskAction)) (n : Nat)
    (p q : Pool) (hs : PoolStep progs p q) (hinv : PoolInv n p) : PoolInv n q := by
  cases hs with
  | acquire i prog hw hp ha =>
    have hc := countP_set_eq TStat.isActive p.tasks i .waiting (.running prog) hw
    unfold PoolInv runningCount at hinv ⊢
    simp only [TStat.isActive] at hc
    simp only [] at hc ⊢
    simp at hc
    omega
  | work i a rest hr hna =>
    have hc := countP_set_eq TStat.isActive p.tasks i (.running (a :: rest))
      (.running rest) hr
    unfold PoolInv runningCount at hinv ⊢
    simp [TStat.isActive] at hc
    dsimp only
    omega
  | free i rest hr =>
    have hc := countP_set_eq TStat.isActive p.tasks i
      (.running (TaskAction.releasePermit :: rest)) .finished hr
    unfold PoolInv runningCount at hinv ⊢
    simp [TStat.isActive] at hc
    dsimp only
    omega

theorem poolReachable_inv (progs : List (List TaskAction)) (n k : Nat) (p : Pool)
    (h : PoolReachable progs n k p) : PoolInv n p := by
  induction h with
  | refl =>
    unfold PoolInv runningCount initPool
    have : (List.replicate k TStat.waiting).countP TStat.isActive = 0 := by
      rw [List.countP_eq_zero]
      intro a ha
      rw [List.eq_of_mem_replicate ha]
      simp [TStat.isActive]
    simp [this]
  | tail hsteps hstep ih =>
    exact poolStep_preserves _ n _ _ hstep ih

/-- C9: in every state reachable from the initial pool (semaphore of `n`
permits, any number of tasks), the number of tasks simultaneously past permit
admission and before permit release is at most `n`; and every per-task
program of `download_batch` releases its permit as its very last action — in
particular strictly after both metadata-repair actions whenever they run. -/
theorem claim9_concurrency_bound :
    (∀ (progs : List (List TaskAction)) (n k : Nat) (p : Pool),
        PoolReachable progs n k p → runningCount p ≤ n)
  ∧ (∀ (orc : TaskOracle) (overwrite download_only : Bool),
        (taskProgram orc overwrite download_only).getLast?
            = some TaskAction.releasePermit
      ∧ TaskAction.releasePermit ∉ (taskProgram orc overwrite download_only).dropLast) := by
  constructor
  · intro progs n k p h
    have := poolReachable_inv progs n k p h
    unfold PoolInv at this
    omega
  · intro orc overwrite download_only
    constructor
    · unfold taskProgram
      exact List.getLast?_concat _
    · unfold taskProgram
      rw [List.dropLast_concat]
      intro hmem
      simp only [List.mem_cons] at hmem
      rcases hmem with h | h
      · simp at h
      · split at h
        · split at h <;> simp_all
        · simp only [List.mem_append, List.mem_replicate] at h
          rcases h with ⟨_, h⟩ | h
          · simp at h
          · repeat' split at h
            all_goals simp_all

/-- C9 witness: admitting one task from a one-permit pool reaches a state
with one active task, within the bound. -/
theorem claim9_concurrency_bound_witness :
    runningCount ⟨0, [TStat.running [TaskAction.releasePermit]]⟩ ≤ 1 :=
  claim9_concurrency_bound.1 [[TaskAction.releasePermit]] 1 1
    ⟨0, [TStat.running [TaskAction.releasePermit]]⟩
    (Relation.ReflTransGen.single
      (PoolStep.acquire (initPool 1 1) 0 [TaskAction.releasePermit] rfl rfl
        (by decide)))
